import Mathlib

/-!
# Verification of the `tust` test-framework execution core

The repository's single source file, `src/tust/src/lib.rs`, is a stub: its only
public item is the empty module `prelude` (everything else is commented out).
The specification describes the intended execution core (Registry, Isolation
Runner, Scheduler, Assertion Engine, Reporter).  Since none of that code exists
under `src/`, the components below are modelled from the spec, each doc comment
saying so explicitly; the final section embeds the actual public interface of
the stub crate.
-/

/-- Modelled from the spec: `DiagnosticContext` (§4.3) — the context handed to
`assert` / `assert_fatal`: a human-readable message, optional structured
expected/actual representations, and a source location.  Missing from `src/`. -/
structure DiagnosticContext where
  message : String
  expected : Option String := none
  actual : Option String := none
  location : String := ""
deriving DecidableEq, Repr

/-- Modelled from the spec: `AssertionRecord` (§3) — one judgment made during a
single test's execution: a boolean verdict plus its diagnostic context.
Missing from `src/`. -/
structure AssertionRecord where
  verdict : Bool
  context : DiagnosticContext
deriving DecidableEq, Repr

/-- Modelled from the spec: one observable action of a test body toward the
Assertion Engine (§4.3): a non-fatal `assert`, a fatal `assert_fatal`, or an
abnormal termination (unhandled fault / panic).  Missing from `src/`. -/
inductive BodyStep where
  | assert (condition : Bool) (context : DiagnosticContext)
  | assertFatal (condition : Bool) (context : DiagnosticContext)
  | abort (message : String)
deriving DecidableEq, Repr

/-- Modelled from the spec: a zero-argument invocable test body (§3), shallowly
embedded as the trace of Assertion-Engine calls it performs, plus its wall-clock
duration (`none` = the body never returns).  Missing from `src/`. -/
structure TestBody where
  steps : List BodyStep
  duration : Option Nat := some 0
deriving DecidableEq, Repr

/-- Modelled from the spec: `TestEntry` (§3) — identity (fully-qualified unique
name), an invocable body, and the declared attributes `ignored`,
`expected_to_fail`, `timeout`, `tags`.  Missing from `src/`. -/
structure TestEntry where
  name : String
  body : TestBody
  ignored : Bool := false
  expectedToFail : Bool := false
  timeout : Option Nat := none
  tags : List String := []
deriving DecidableEq, Repr

/-- Modelled from the spec: `Outcome` (§3) — variant over
{Passed, Failed(FailureDetail), Ignored, TimedOut, Panicked(PanicDetail)}.
`failed` carries the ordered assertion records plus an optional diagnostic
(used by the expected-to-fail remap); `panicked` carries the panic message and
whatever assertions had been recorded before the abort.  Missing from `src/`. -/
inductive Outcome where
  | passed
  | failed (records : List AssertionRecord) (diagnostic : Option String)
  | ignored
  | timedOut
  | panicked (message : String) (records : List AssertionRecord)
deriving DecidableEq, Repr

/-! ## Registry (§4.1) -/

/-- Modelled from the spec: `register` (§4.1/§6) appends one entry to the open
registry; duplicate detection happens centrally at `finalize`.  Missing from
`src/`. -/
def register (registry : List TestEntry) (e : TestEntry) : List TestEntry :=
  registry ++ [e]

/-- Modelled from the spec: `DuplicateNameError` (§4.1), naming all offending
entries, not just the first.  Missing from `src/`. -/
structure DuplicateNameError where
  names : List String
deriving DecidableEq, Repr

/-- Modelled from the spec: the names of all offending entries — one name per
registered entry whose name occurs more than once.  Missing from `src/`. -/
def offendingNames (registry : List TestEntry) : List String :=
  (registry.map TestEntry.name).filter
    (fun n => 2 ≤ (registry.map TestEntry.name).count n)

/-- Modelled from the spec: `FrozenRegistry` (§4.1) — the closed, sorted,
immutable registry.  Missing from `src/`. -/
structure FrozenRegistry where
  list : List TestEntry
deriving DecidableEq, Repr

/-- Name order on test entries, used by `finalize` for the deterministic
default ordering. -/
def nameLE (a b : TestEntry) : Prop := a.name ≤ b.name

instance : DecidableRel nameLE := fun a b =>
  inferInstanceAs (Decidable (a.name ≤ b.name))

instance : IsTotal TestEntry nameLE := ⟨fun a b => le_total a.name b.name⟩

instance : IsTrans TestEntry nameLE := ⟨fun _ _ _ h1 h2 => le_trans h1 h2⟩

/-- Modelled from the spec: `finalize` (§4.1) sorts entries by name for
deterministic default ordering and detects duplicate names, failing with a
`DuplicateNameError` naming all offending entries.  Missing from `src/`. -/
def finalize (registry : List TestEntry) :
    Except DuplicateNameError FrozenRegistry :=
  if offendingNames registry = [] then
    Except.ok ⟨List.insertionSort nameLE registry⟩
  else
    Except.error ⟨offendingNames registry⟩

/-- Modelled from the spec: `entries` (§4.1) — filtering is a pure function of
(frozen sorted list, predicate).  Missing from `src/`. -/
def FrozenRegistry.entries (fr : FrozenRegistry) (p : TestEntry → Bool) :
    List TestEntry :=
  fr.list.filter p

/-! ## Assertion Engine and Isolation Runner (§4.2, §4.3) -/

/-- Modelled from the spec: execution of a test body against a fresh
accumulator (§4.3).  A non-fatal `assert` appends a record and continues; a
failing `assert_fatal` appends then aborts the body; an abnormal termination
stops the body and surfaces the panic message.  Returns the accumulated records
in program order and the panic message, if any.  Missing from `src/`. -/
def execBody : List BodyStep → List AssertionRecord →
    List AssertionRecord × Option String
  | [], acc => (acc, none)
  | BodyStep.assert c ctx :: rest, acc => execBody rest (acc ++ [⟨c, ctx⟩])
  | BodyStep.assertFatal c ctx :: rest, acc =>
    if c then execBody rest (acc ++ [⟨c, ctx⟩]) else (acc ++ [⟨c, ctx⟩], none)
  | BodyStep.abort m :: _, acc => (acc, some m)

/-- Modelled from the spec: the Isolation Runner's three termination modes plus
the timeout (§4.2): exceeding the budget yields `TimedOut`; an abnormal
termination yields `Panicked` with the records accumulated so far; a normal
return yields `Passed` when every recorded assertion passed, else `Failed`
carrying the accumulated records.  Missing from `src/`. -/
def naturalOutcome (body : TestBody) (budget : Nat) : Outcome :=
  match body.duration with
  | none => Outcome.timedOut
  | some d =>
    if budget < d then Outcome.timedOut
    else
      match execBody body.steps [] with
      | (records, some m) => Outcome.panicked m records
      | (records, none) =>
        if records.all (fun r => r.verdict) then Outcome.passed
        else Outcome.failed records none

/-- The diagnostic attached when a test marked expected-to-fail passes. -/
def expectedFailureDiagnostic : String := "expected failure but passed"

/-- Modelled from the spec: the expected-to-fail remap (§4.2) — `Failed` or
`Panicked` becomes `Passed`, `Passed` becomes `Failed` with a diagnostic
stating the test was expected to fail but did not; other outcomes unchanged.
Missing from `src/`. -/
def applyExpectedToFail (expected : Bool) (o : Outcome) : Outcome :=
  if expected then
    match o with
    | Outcome.passed => Outcome.failed [] (some expectedFailureDiagnostic)
    | Outcome.failed _ _ => Outcome.passed
    | Outcome.panicked _ _ => Outcome.passed
    | o => o
  else o

/-- Modelled from the spec: the Isolation Runner contract
`run(entry, budget) -> Outcome` (§4.2): run the body against a fresh
accumulator within the budget, then apply the expected-to-fail remap.
Missing from `src/`. -/
def isolationRun (e : TestEntry) (budget : Nat) : Outcome :=
  applyExpectedToFail e.expectedToFail (naturalOutcome e.body budget)

/-! ## Scheduler (§4.4, §5) -/

/-- Modelled from the spec: `RunOptions` (§4.4) — maximum parallel workers,
fail-fast policy, scheduler-wide default timeout, and the filter predicate.
The spec lets the filter explicitly override an entry's ignored status
("ignored-status override", §4.1/§4.4); that override is carried here as the
Boolean `overrideIgnored` alongside the selection predicate.
Missing from `src/`. -/
structure RunOptions where
  concurrency : Nat := 1
  failFast : Bool := false
  defaultTimeout : Nat := 0
  filter : TestEntry → Bool := fun _ => true
  overrideIgnored : Bool := false

/-- Modelled from the spec (§4.4): an entry is short-circuited to `Ignored`
without dispatch when its `ignored` attribute is set and not explicitly
overridden by the filter.  Missing from `src/`. -/
def shortCircuit (opts : RunOptions) (e : TestEntry) : Bool :=
  e.ignored && !opts.overrideIgnored

/-- Modelled from the spec (§4.2): the budget is the entry-specific timeout,
else the scheduler-wide default.  Missing from `src/`. -/
def resolveBudget (opts : RunOptions) (e : TestEntry) : Nat :=
  e.timeout.getD opts.defaultTimeout

/-- The (identity, Outcome) pair a dispatched entry contributes: its Isolation
Runner result under its resolved budget. -/
def runEntry (opts : RunOptions) (e : TestEntry) : String × Outcome :=
  (e.name, isolationRun e (resolveBudget opts e))

/-- The (identity, Outcome) pair any work-list entry contributes: `Ignored`
when short-circuited, else its Isolation Runner result. -/
def entryOutcome (opts : RunOptions) (e : TestEntry) : String × Outcome :=
  if shortCircuit opts e then (e.name, Outcome.ignored) else runEntry opts e

/-- Modelled from the spec (§4.4): fail-fast triggers on the first
non-`Passed` / non-`Ignored` outcome.  Missing from `src/`. -/
def triggersFailFast : Outcome → Bool
  | Outcome.passed => false
  | Outcome.ignored => false
  | _ => true

/-- Modelled from the spec: `RunSummary` (§3) — the ordered list of
(TestEntry identity, Outcome) pairs in completion order.  `dispatched` records,
in dispatch order, the names of the entries actually handed to an Isolation
Runner, making the "never invoked" / "no new dispatch" contracts observable in
the model.  Missing from `src/`. -/
structure RunSummary where
  results : List (String × Outcome)
  dispatched : List String
deriving DecidableEq, Repr

/-- Modelled from the spec (§4.4, §5): the Scheduler loop over the filtered
work list.  Workers are the `running` multiset, bounded by `concurrency`
(at least one worker): while dispatch is possible (dispatch not stopped, a
worker free, work pending) the next work-list entry is either short-circuited
to `Ignored` or dispatched; otherwise some running entry — chosen by the
completion schedule `sched`, which models the racing workers' nondeterministic
completion order — finishes, its Outcome is collected in completion order, and
fail-fast, once triggered, permanently stops new dispatch.  The run terminates
when no work is pending (or dispatch is stopped) and no entry is running;
entries never dispatched due to fail-fast or filtering are absent from the
summary.  Missing from `src/`. -/
def schedLoop (opts : RunOptions) (pending running : List TestEntry)
    (stop : Bool) (sched : List Nat) (results : List (String × Outcome))
    (dispatched : List String) : RunSummary :=
  if h1 : pending = [] ∨ stop = true ∨ max 1 opts.concurrency ≤ running.length then
    if h2 : running.rotate (sched.headD 0) = [] then ⟨results, dispatched⟩
    else
      schedLoop opts pending (running.rotate (sched.headD 0)).tail
        (stop || (opts.failFast && triggersFailFast
          (runEntry opts ((running.rotate (sched.headD 0)).head h2)).2))
        sched.tail
        (results ++ [(((running.rotate (sched.headD 0)).head h2).name,
          (runEntry opts ((running.rotate (sched.headD 0)).head h2)).2)])
        dispatched
  else
    if shortCircuit opts (pending.head (fun h => h1 (Or.inl h))) then
      schedLoop opts pending.tail running stop sched
        (results ++ [((pending.head (fun h => h1 (Or.inl h))).name, Outcome.ignored)])
        dispatched
    else
      schedLoop opts pending.tail
        (running ++ [pending.head (fun h => h1 (Or.inl h))]) stop sched results
        (dispatched ++ [(pending.head (fun h => h1 (Or.inl h))).name])
termination_by 2 * pending.length + running.length
decreasing_by
  · have hlen : (running.rotate (sched.headD 0)).length = running.length :=
      List.length_rotate running (sched.headD 0)
    have hpos : running.length ≠ 0 := by
      intro h0
      exact h2 (by
        have : (running.rotate (sched.headD 0)).length = 0 := by rw [hlen, h0]
        exact List.eq_nil_of_length_eq_zero this)
    have htail : (running.rotate (sched.headD 0)).tail.length
        = (running.rotate (sched.headD 0)).length - 1 := List.length_tail _
    omega
  · have hpos : pending.length ≠ 0 := by
      intro h0
      exact h1 (Or.inl (List.eq_nil_of_length_eq_zero h0))
    have htail : pending.tail.length = pending.length - 1 := List.length_tail _
    omega
  · have hpos : pending.length ≠ 0 := by
      intro h0
      exact h1 (Or.inl (List.eq_nil_of_length_eq_zero h0))
    have htail : pending.tail.length = pending.length - 1 := List.length_tail _
    simp only [List.length_append, List.length_cons, List.length_nil]
    omega

/-- Modelled from the spec: the Scheduler contract
`run(registry, options) -> RunSummary` (§4.4): apply the filter to the frozen,
sorted registry to produce the ordered work list, then run the dispatch loop
with no worker running and dispatch not stopped.  `sched` is the completion
schedule (which racing worker finishes next).  Missing from `src/`. -/
def runScheduler (fr : FrozenRegistry) (opts : RunOptions) (sched : List Nat) :
    RunSummary :=
  schedLoop opts (fr.list.filter opts.filter) [] false sched [] []

/-- Modelled from the spec (§7): the whole pipeline — a configuration error at
`finalize` is fatal to the run and no test executes; otherwise the Scheduler
runs the frozen registry.  Missing from `src/`. -/
def runTests (registry : List TestEntry) (opts : RunOptions) (sched : List Nat) :
    Except DuplicateNameError RunSummary :=
  (finalize registry).map (fun fr => runScheduler fr opts sched)

/-! ## Reporter (§4.5) -/

/-- Modelled from the spec (§4.5): outcomes that make the overall run fail —
`Failed`, `TimedOut`, or `Panicked`; `Passed` and `Ignored` never do.
Missing from `src/`. -/
def isHardFailure : Outcome → Bool
  | Outcome.failed _ _ => true
  | Outcome.timedOut => true
  | Outcome.panicked _ _ => true
  | _ => false

/-- Modelled from the spec (§4.5): the exit-status contract — non-zero exactly
when some Outcome is `Failed`, `TimedOut`, or `Panicked`.  Missing from
`src/`. -/
def exitCode (s : RunSummary) : Nat :=
  if s.results.any (fun r => isHardFailure r.2) then 1 else 0

/-- Modelled from the spec: the RunSummary's counts per Outcome variant (§3).
Missing from `src/`. -/
structure VariantCounts where
  passed : Nat
  failed : Nat
  ignored : Nat
  timedOut : Nat
  panicked : Nat
deriving DecidableEq, Repr

/-- The per-variant counts of a run summary. -/
def countsOf (s : RunSummary) : VariantCounts where
  passed := s.results.countP (fun r => match r.2 with
    | Outcome.passed => true | _ => false)
  failed := s.results.countP (fun r => match r.2 with
    | Outcome.failed _ _ => true | _ => false)
  ignored := s.results.countP (fun r => match r.2 with
    | Outcome.ignored => true | _ => false)
  timedOut := s.results.countP (fun r => match r.2 with
    | Outcome.timedOut => true | _ => false)
  panicked := s.results.countP (fun r => match r.2 with
    | Outcome.panicked _ _ => true | _ => false)

/-! ## Scheduler lemmas -/

/-- List shuffle: moving a singleton across a middle segment is a
permutation. -/
theorem append_singleton_perm {α : Type} (res A B : List α) (y : α) :
    (res ++ [y] ++ A ++ B).Perm (res ++ A ++ (y :: B)) := by
  have h1 : res ++ [y] ++ A ++ B = res ++ (y :: (A ++ B)) := by simp
  have h2 : res ++ A ++ (y :: B) = res ++ (A ++ y :: B) := by simp
  rw [h1, h2]
  exact List.Perm.append_left res List.perm_middle.symm

/-- With fail-fast off and dispatch not stopped, the loop's completion-order
results are a permutation of the accumulated results followed by the outcomes
of the in-flight entries and of the pending work list. -/
theorem schedLoop_results_perm (opts : RunOptions) (hff : opts.failFast = false) :
    ∀ (pending running : List TestEntry) (sched : List Nat)
      (results : List (String × Outcome)) (dispatched : List String),
      (schedLoop opts pending running false sched results dispatched).results.Perm
        (results ++ running.map (runEntry opts) ++ pending.map (entryOutcome opts)) := by
  have main : ∀ (pending running : List TestEntry) (stop : Bool) (sched : List Nat)
      (results : List (String × Outcome)) (dispatched : List String), stop = false →
      (schedLoop opts pending running stop sched results dispatched).results.Perm
        (results ++ running.map (runEntry opts) ++ pending.map (entryOutcome opts)) := by
    intro pending running stop sched results dispatched
    induction pending, running, stop, sched, results, dispatched
        using schedLoop.induct opts with
    | case1 pending running stop sched results dispatched h1 h2 =>
      intro hstop
      subst hstop
      have hrun : running = [] := by
        have hl := congrArg List.length h2
        simp only [List.length_rotate, List.length_nil] at hl
        exact List.eq_nil_of_length_eq_zero hl
      have hpend : pending = [] := by
        rcases h1 with h | h | h
        · exact h
        · exact absurd h (by simp)
        · rw [hrun] at h
          simp only [List.length_nil] at h
          have := le_trans (le_max_left 1 opts.concurrency) h
          omega
      subst hrun hpend
      rw [schedLoop]
      simp
    | case2 pending running stop sched results dispatched h1 h2 ih =>
      intro hstop
      subst hstop
      rw [schedLoop, dif_pos h1, dif_neg h2]
      refine (ih (by simp [hff])).trans ?_
      have hperm : ((running.rotate (sched.headD 0)).head h2 ::
            (running.rotate (sched.headD 0)).tail).Perm running := by
        rw [List.head_cons_tail]
        exact List.rotate_perm running (sched.headD 0)
      have hkey : ((((running.rotate (sched.headD 0)).head h2).name,
            (runEntry opts ((running.rotate (sched.headD 0)).head h2)).2) ::
            (running.rotate (sched.headD 0)).tail.map (runEntry opts)).Perm
          (running.map (runEntry opts)) := by
        have hmap := hperm.map (runEntry opts)
        rw [List.map_cons] at hmap
        exact hmap
      have hshape : results ++ [(((running.rotate (sched.headD 0)).head h2).name,
            (runEntry opts ((running.rotate (sched.headD 0)).head h2)).2)] ++
            (running.rotate (sched.headD 0)).tail.map (runEntry opts) ++
            pending.map (entryOutcome opts)
          = results ++ ((((running.rotate (sched.headD 0)).head h2).name,
              (runEntry opts ((running.rotate (sched.headD 0)).head h2)).2) ::
              (running.rotate (sched.headD 0)).tail.map (runEntry opts)) ++
            pending.map (entryOutcome opts) := by
        simp
      rw [hshape]
      exact (hkey.append_left results).append_right _
    | case3 pending running stop sched results dispatched h hsc ih =>
      intro hstop
      subst hstop
      rw [schedLoop, dif_neg h, if_pos hsc]
      refine (ih rfl).trans ?_
      have hp : pending ≠ [] := fun h0 => h (Or.inl h0)
      conv_rhs => rw [← List.head_cons_tail pending hp]
      rw [List.map_cons]
      have heo : entryOutcome opts (pending.head hp)
          = ((pending.head hp).name, Outcome.ignored) := by
        simp [entryOutcome, hsc]
      rw [heo]
      exact append_singleton_perm results (running.map (runEntry opts))
        (pending.tail.map (entryOutcome opts)) ((pending.head hp).name, Outcome.ignored)
    | case4 pending running stop sched results dispatched h hsc ih =>
      intro hstop
      subst hstop
      rw [schedLoop, dif_neg h, if_neg hsc]
      refine (ih rfl).trans ?_
      have hp : pending ≠ [] := fun h0 => h (Or.inl h0)
      conv_rhs => rw [← List.head_cons_tail pending hp]
      rw [List.map_cons]
      have heo : entryOutcome opts (pending.head hp) = runEntry opts (pending.head hp) := by
        simp only [Bool.not_eq_true] at hsc
        simp [entryOutcome, hsc]
      rw [heo]
      have hshape : results ++ (running ++ [pending.head hp]).map (runEntry opts) ++
            pending.tail.map (entryOutcome opts)
          = results ++ (running.map (runEntry opts) ++
              (runEntry opts (pending.head hp) :: pending.tail.map (entryOutcome opts))) := by
        simp
      rw [hshape]
      simp
  intro pending running sched results dispatched
  exact main pending running false sched results dispatched rfl

/-- Once dispatch is stopped, no entry is ever newly dispatched, and the
results gained are exactly the true outcomes of the in-flight entries. -/
theorem schedLoop_stopped (opts : RunOptions) :
    ∀ (pending running : List TestEntry) (sched : List Nat)
      (results : List (String × Outcome)) (dispatched : List String),
      (schedLoop opts pending running true sched results dispatched).dispatched
        = dispatched ∧
      (schedLoop opts pending running true sched results dispatched).results.Perm
        (results ++ running.map (runEntry opts)) := by
  have main : ∀ (pending running : List TestEntry) (stop : Bool) (sched : List Nat)
      (results : List (String × Outcome)) (dispatched : List String), stop = true →
      (schedLoop opts pending running stop sched results dispatched).dispatched
        = dispatched ∧
      (schedLoop opts pending running stop sched results dispatched).results.Perm
        (results ++ running.map (runEntry opts)) := by
    intro pending running stop sched results dispatched
    induction pending, running, stop, sched, results, dispatched
        using schedLoop.induct opts with
    | case1 pending running stop sched results dispatched h1 h2 =>
      intro hstop
      subst hstop
      have hrun : running = [] := by
        have hl := congrArg List.length h2
        simp only [List.length_rotate, List.length_nil] at hl
        exact List.eq_nil_of_length_eq_zero hl
      subst hrun
      rw [schedLoop, dif_pos h1]
      simp
    | case2 pending running stop sched results dispatched h1 h2 ih =>
      intro hstop
      subst hstop
      rw [schedLoop, dif_pos h1, dif_neg h2]
      obtain ⟨ihd, ihr⟩ := ih rfl
      refine ⟨ihd, ihr.trans ?_⟩
      have hperm : ((running.rotate (sched.headD 0)).head h2 ::
            (running.rotate (sched.headD 0)).tail).Perm running := by
        rw [List.head_cons_tail]
        exact List.rotate_perm running (sched.headD 0)
      have hkey : ((((running.rotate (sched.headD 0)).head h2).name,
            (runEntry opts ((running.rotate (sched.headD 0)).head h2)).2) ::
            (running.rotate (sched.headD 0)).tail.map (runEntry opts)).Perm
          (running.map (runEntry opts)) := by
        have hmap := hperm.map (runEntry opts)
        rw [List.map_cons] at hmap
        exact hmap
      have hshape : results ++ [(((running.rotate (sched.headD 0)).head h2).name,
            (runEntry opts ((running.rotate (sched.headD 0)).head h2)).2)] ++
            (running.rotate (sched.headD 0)).tail.map (runEntry opts)
          = results ++ ((((running.rotate (sched.headD 0)).head h2).name,
              (runEntry opts ((running.rotate (sched.headD 0)).head h2)).2) ::
              (running.rotate (sched.headD 0)).tail.map (runEntry opts)) := by
        simp
      rw [hshape]
      exact hkey.append_left results
    | case3 pending running stop sched results dispatched h hsc ih =>
      intro hstop
      subst hstop
      exact absurd (Or.inr (Or.inl rfl)) h
    | case4 pending running stop sched results dispatched h hsc ih =>
      intro hstop
      subst hstop
      exact absurd (Or.inr (Or.inl rfl)) h
  intro pending running sched results dispatched
  exact main pending running true sched results dispatched rfl

/-- With fail-fast off, the entries dispatched by the loop are exactly the
pending entries that are not short-circuited, in order. -/
theorem schedLoop_dispatched_eq (opts : RunOptions) (hff : opts.failFast = false) :
    ∀ (pending running : List TestEntry) (sched : List Nat)
      (results : List (String × Outcome)) (dispatched : List String),
      (schedLoop opts pending running false sched results dispatched).dispatched
        = dispatched ++
          (pending.filter (fun e => !shortCircuit opts e)).map TestEntry.name := by
  have main : ∀ (pending running : List TestEntry) (stop : Bool) (sched : List Nat)
      (results : List (String × Outcome)) (dispatched : List String), stop = false →
      (schedLoop opts pending running stop sched results dispatched).dispatched
        = dispatched ++
          (pending.filter (fun e => !shortCircuit opts e)).map TestEntry.name := by
    intro pending running stop sched results dispatched
    induction pending, running, stop, sched, results, dispatched
        using schedLoop.induct opts with
    | case1 pending running stop sched results dispatched h1 h2 =>
      intro hstop
      subst hstop
      have hrun : running = [] := by
        have hl := congrArg List.length h2
        simp only [List.length_rotate, List.length_nil] at hl
        exact List.eq_nil_of_length_eq_zero hl
      have hpend : pending = [] := by
        rcases h1 with h | h | h
        · exact h
        · exact absurd h (by simp)
        · rw [hrun] at h
          simp only [List.length_nil] at h
          have := le_trans (le_max_left 1 opts.concurrency) h
          omega
      subst hrun hpend
      rw [schedLoop]
      simp
    | case2 pending running stop sched results dispatched h1 h2 ih =>
      intro hstop
      subst hstop
      rw [schedLoop, dif_pos h1, dif_neg h2]
      exact ih (by simp [hff])
    | case3 pending running stop sched results dispatched h hsc ih =>
      intro hstop
      subst hstop
      rw [schedLoop, dif_neg h, if_pos hsc]
      rw [ih rfl]
      have hp : pending ≠ [] := fun h0 => h (Or.inl h0)
      conv_rhs => rw [← List.head_cons_tail pending hp]
      rw [List.filter_cons]
      simp [hsc]
    | case4 pending running stop sched results dispatched h hsc ih =>
      intro hstop
      subst hstop
      rw [schedLoop, dif_neg h, if_neg hsc]
      rw [ih rfl]
      have hp : pending ≠ [] := fun h0 => h (Or.inl h0)
      conv_rhs => rw [← List.head_cons_tail pending hp]
      rw [List.filter_cons]
      simp only [Bool.not_eq_true] at hsc
      simp [hsc]
  intro pending running sched results dispatched
  exact main pending running false sched results dispatched rfl

/-- A registry has no offending names exactly when its names are pairwise
distinct. -/
theorem offendingNames_eq_nil_iff (registry : List TestEntry) :
    offendingNames registry = [] ↔ (registry.map TestEntry.name).Nodup := by
  rw [offendingNames, List.filter_eq_nil_iff, List.nodup_iff_count_le_one]
  constructor
  · intro h n
    by_cases hn : n ∈ registry.map TestEntry.name
    · have := h n hn
      simp only [decide_eq_true_eq] at this
      omega
    · rw [List.count_eq_zero_of_not_mem hn]
      omega
  · intro h n hn
    have := h n
    simp only [decide_eq_true_eq]
    omega

/-- The expected-to-fail remap never touches a timed-out outcome. -/
theorem applyExpectedToFail_timedOut (b : Bool) :
    applyExpectedToFail b Outcome.timedOut = Outcome.timedOut := by
  cases b <;> rfl

/-! ## Claims -/

/-- C1: for every registry holding N entries with pairwise-unique names,
`finalize()` succeeds, and `entries` with a match-all predicate returns exactly
N entries, ordered by name in sorted order (a permutation of the registered
entries). -/
theorem finalize_entries_sorted (registry : List TestEntry)
    (hnodup : (registry.map TestEntry.name).Nodup) :
    ∃ fr : FrozenRegistry, finalize registry = Except.ok fr ∧
      (fr.entries (fun _ => true)).length = registry.length ∧
      List.Sorted nameLE (fr.entries (fun _ => true)) ∧
      (fr.entries (fun _ => true)).Perm registry := by
  have hoff : offendingNames registry = [] :=
    (offendingNames_eq_nil_iff registry).mpr hnodup
  refine ⟨⟨List.insertionSort nameLE registry⟩, ?_, ?_, ?_, ?_⟩
  · rw [finalize, if_pos hoff]
  · rw [FrozenRegistry.entries]
    simp [List.length_insertionSort]
  · rw [FrozenRegistry.entries]
    simpa [List.filter_true] using List.sorted_insertionSort nameLE registry
  · rw [FrozenRegistry.entries]
    simpa [List.filter_true] using List.perm_insertionSort nameLE registry

/-- Witness for C1 at a concrete three-entry registry with unique names. -/
theorem finalize_entries_sorted_witness :
    ∃ fr : FrozenRegistry,
      finalize [{ name := "c", body := { steps := [] } },
                { name := "a", body := { steps := [] } },
                { name := "b", body := { steps := [] } }] = Except.ok fr ∧
      (fr.entries (fun _ => true)).length = 3 ∧
      List.Sorted nameLE (fr.entries (fun _ => true)) ∧
      (fr.entries (fun _ => true)).Perm
        [{ name := "c", body := { steps := [] } },
         { name := "a", body := { steps := [] } },
         { name := "b", body := { steps := [] } }] :=
  finalize_entries_sorted _ (by decide)

/-- C2: registering two entries with the same name, in either registration
order, makes `finalize` fail with a `DuplicateNameError` listing both offending
entry names, and the whole pipeline reports the configuration error instead of
producing a `RunSummary`, so no test executes. -/
theorem duplicate_name_error_lists_all (e1 e2 : TestEntry) (opts : RunOptions)
    (sched : List Nat) (hname : e1.name = e2.name) :
    finalize (register (register [] e1) e2)
        = Except.error ⟨[e1.name, e2.name]⟩ ∧
    finalize (register (register [] e2) e1)
        = Except.error ⟨[e2.name, e1.name]⟩ ∧
    runTests (register (register [] e1) e2) opts sched
        = Except.error ⟨[e1.name, e2.name]⟩ ∧
    runTests (register (register [] e2) e1) opts sched
        = Except.error ⟨[e2.name, e1.name]⟩ := by
  have hoff1 : offendingNames (register (register [] e1) e2) = [e1.name, e2.name] := by
    simp [offendingNames, register, List.filter_cons, List.count_cons, ← hname]
  have hoff2 : offendingNames (register (register [] e2) e1) = [e2.name, e1.name] := by
    simp [offendingNames, register, List.filter_cons, List.count_cons, ← hname]
  have hne1 : ¬ offendingNames (register (register [] e1) e2) = [] := by
    rw [hoff1]; simp
  have hne2 : ¬ offendingNames (register (register [] e2) e1) = [] := by
    rw [hoff2]; simp
  have hfin1 : finalize (register (register [] e1) e2)
      = Except.error ⟨[e1.name, e2.name]⟩ := by
    rw [finalize, if_neg hne1, hoff1]
  have hfin2 : finalize (register (register [] e2) e1)
      = Except.error ⟨[e2.name, e1.name]⟩ := by
    rw [finalize, if_neg hne2, hoff2]
  refine ⟨hfin1, hfin2, ?_, ?_⟩
  · rw [runTests, hfin1]; rfl
  · rw [runTests, hfin2]; rfl

/-- Witness for C2 at two concrete entries sharing the name "dup". -/
theorem duplicate_name_error_lists_all_witness :
    finalize (register (register [] { name := "dup", body := { steps := [] } })
        { name := "dup", body := { steps := [] }, ignored := true })
      = Except.error ⟨["dup", "dup"]⟩ ∧
    finalize (register (register []
        { name := "dup", body := { steps := [] }, ignored := true })
        { name := "dup", body := { steps := [] } })
      = Except.error ⟨["dup", "dup"]⟩ ∧
    runTests (register (register [] { name := "dup", body := { steps := [] } })
        { name := "dup", body := { steps := [] }, ignored := true }) {} []
      = Except.error ⟨["dup", "dup"]⟩ ∧
    runTests (register (register []
        { name := "dup", body := { steps := [] }, ignored := true })
        { name := "dup", body := { steps := [] } }) {} []
      = Except.error ⟨["dup", "dup"]⟩ :=
  duplicate_name_error_lists_all _ _ {} [] rfl

/-- C3: a body recording non-fatal assertions A1 (pass), A2 (fail), A3 (pass)
yields `Failed` with all three AssertionRecords in program order and exactly A2
marked failing — the failing non-fatal A2 does not stop execution — while the
same body with A2 as `assert_fatal` aborts after A2 (only `assert_fatal` stops
execution). -/
theorem nonfatal_assert_does_not_stop (e eFatal : TestEntry)
    (c1 c2 c3 : DiagnosticContext) (d budget : Nat)
    (hsteps : e.body.steps =
      [BodyStep.assert true c1, BodyStep.assert false c2, BodyStep.assert true c3])
    (hd : e.body.duration = some d) (hbudget : d ≤ budget)
    (hexp : e.expectedToFail = false)
    (hsteps2 : eFatal.body.steps =
      [BodyStep.assert true c1, BodyStep.assertFatal false c2,
       BodyStep.assert true c3])
    (hd2 : eFatal.body.duration = some d)
    (hexp2 : eFatal.expectedToFail = false) :
    isolationRun e budget
      = Outcome.failed [⟨true, c1⟩, ⟨false, c2⟩, ⟨true, c3⟩] none ∧
    isolationRun eFatal budget
      = Outcome.failed [⟨true, c1⟩, ⟨false, c2⟩] none := by
  have hnl : ¬ budget < d := Nat.not_lt.mpr hbudget
  constructor
  · rw [isolationRun, naturalOutcome, hd, hexp]
    simp [hnl, hsteps, execBody, applyExpectedToFail]
  · rw [isolationRun, naturalOutcome, hd2, hexp2]
    simp [hnl, hsteps2, execBody, applyExpectedToFail]

/-- Witness for C3 at a concrete entry with duration 0 and budget 0. -/
theorem nonfatal_assert_does_not_stop_witness :
    isolationRun
        { name := "t",
          body := { steps := [BodyStep.assert true ⟨"a1", none, none, ""⟩,
                              BodyStep.assert false ⟨"a2", none, none, ""⟩,
                              BodyStep.assert true ⟨"a3", none, none, ""⟩],
                    duration := some 0 } } 0
      = Outcome.failed
          [⟨true, ⟨"a1", none, none, ""⟩⟩, ⟨false, ⟨"a2", none, none, ""⟩⟩,
           ⟨true, ⟨"a3", none, none, ""⟩⟩] none ∧
    isolationRun
        { name := "t2",
          body := { steps := [BodyStep.assert true ⟨"a1", none, none, ""⟩,
                              BodyStep.assertFatal false ⟨"a2", none, none, ""⟩,
                              BodyStep.assert true ⟨"a3", none, none, ""⟩],
                    duration := some 0 } } 0
      = Outcome.failed
          [⟨true, ⟨"a1", none, none, ""⟩⟩,
           ⟨false, ⟨"a2", none, none, ""⟩⟩] none :=
  nonfatal_assert_does_not_stop _ _ _ _ _ 0 0 rfl rfl (by decide) rfl rfl rfl rfl

/-- C4: with `expected_to_fail` set, the Isolation Runner remaps a naturally
`Failed` or `Panicked` result to `Passed` and a naturally `Passed` result to
`Failed` with the "expected failure but passed" diagnostic — the remap applied
symmetrically in both directions. -/
theorem expectedToFail_remap (e : TestEntry) (budget : Nat)
    (hexp : e.expectedToFail = true) :
    ((∃ recs diag, naturalOutcome e.body budget = Outcome.failed recs diag) →
      isolationRun e budget = Outcome.passed) ∧
    ((∃ m recs, naturalOutcome e.body budget = Outcome.panicked m recs) →
      isolationRun e budget = Outcome.passed) ∧
    (naturalOutcome e.body budget = Outcome.passed →
      isolationRun e budget
        = Outcome.failed [] (some expectedFailureDiagnostic)) := by
  refine ⟨?_, ?_, ?_⟩
  · rintro ⟨recs, diag, h⟩
    rw [isolationRun, h, hexp]
    rfl
  · rintro ⟨m, recs, h⟩
    rw [isolationRun, h, hexp]
    rfl
  · intro h
    rw [isolationRun, h, hexp]
    rfl

/-- Witness for C4: a concrete expected-to-fail entry whose body fails is
remapped to `Passed`, and one whose body passes is remapped to `Failed` with
the diagnostic. -/
theorem expectedToFail_remap_witness :
    isolationRun
        { name := "xf", expectedToFail := true,
          body := { steps := [BodyStep.assert false ⟨"m", none, none, ""⟩] } } 0
      = Outcome.passed ∧
    isolationRun
        { name := "xp", expectedToFail := true,
          body := { steps := [BodyStep.assert true ⟨"m", none, none, ""⟩] } } 0
      = Outcome.failed [] (some expectedFailureDiagnostic) :=
  ⟨(expectedToFail_remap _ 0 rfl).1 ⟨_, _, rfl⟩,
   (expectedToFail_remap _ 0 rfl).2.2 rfl⟩

/-- C5: a test whose body never returns within its timeout yields `TimedOut`
in the run's results, and the Scheduler's run still terminates with a complete
summary — exactly one outcome per work-list entry — once all other entries
finish. -/
theorem timeout_yields_timedout (fr : FrozenRegistry) (opts : RunOptions)
    (sched : List Nat) (e : TestEntry)
    (hff : opts.failFast = false) (hmem : e ∈ fr.list)
    (hfilter : opts.filter e = true) (hsc : shortCircuit opts e = false)
    (hdur : e.body.duration = none) :
    (e.name, Outcome.timedOut) ∈ (runScheduler fr opts sched).results ∧
    (runScheduler fr opts sched).results.length
      = (fr.list.filter opts.filter).length := by
  have hperm := schedLoop_results_perm opts hff (fr.list.filter opts.filter) []
    sched [] []
  have hout : entryOutcome opts e = (e.name, Outcome.timedOut) := by
    rw [entryOutcome, hsc]
    simp only [Bool.false_eq_true, if_false]
    rw [runEntry, isolationRun, naturalOutcome, hdur, applyExpectedToFail_timedOut]
  have hwl : e ∈ fr.list.filter opts.filter := List.mem_filter.mpr ⟨hmem, hfilter⟩
  constructor
  · rw [runScheduler]
    refine hperm.mem_iff.mpr ?_
    simp only [List.nil_append, List.map_nil, List.mem_map]
    exact ⟨e, hwl, hout⟩
  · rw [runScheduler]
    rw [hperm.length_eq]
    simp

/-- Witness for C5: a single never-returning entry times out and the run
completes. -/
theorem timeout_yields_timedout_witness :
    ("hang", Outcome.timedOut) ∈
      (runScheduler ⟨[{ name := "hang",
                        body := { steps := [], duration := none } }]⟩ {} []).results ∧
    (runScheduler ⟨[{ name := "hang",
                      body := { steps := [], duration := none } }]⟩ {} []).results.length
      = ((⟨[{ name := "hang", body := { steps := [], duration := none } }]⟩ :
          FrozenRegistry).list.filter (fun _ => true)).length :=
  timeout_yields_timedout
    ⟨[{ name := "hang", body := { steps := [], duration := none } }]⟩ {} []
    { name := "hang", body := { steps := [], duration := none } }
    rfl (by decide) rfl rfl rfl

/-- Collecting one finished entry moves its true outcome into the results, a
permutation of finishing the whole in-flight list. -/
theorem finish_step_perm (opts : RunOptions) (running : List TestEntry) (c : Nat)
    (hne : ¬ running.rotate c = []) (results : List (String × Outcome)) :
    (results ++ [(((running.rotate c).head hne).name,
        (runEntry opts ((running.rotate c).head hne)).2)] ++
      (running.rotate c).tail.map (runEntry opts)).Perm
      (results ++ running.map (runEntry opts)) := by
  have hperm : ((running.rotate c).head hne :: (running.rotate c).tail).Perm running := by
    rw [List.head_cons_tail]
    exact List.rotate_perm running c
  have hmap := hperm.map (runEntry opts)
  rw [List.map_cons] at hmap
  have hshape : results ++ [(((running.rotate c).head hne).name,
        (runEntry opts ((running.rotate c).head hne)).2)] ++
      (running.rotate c).tail.map (runEntry opts)
      = results ++ ((((running.rotate c).head hne).name,
          (runEntry opts ((running.rotate c).head hne)).2) ::
          (running.rotate c).tail.map (runEntry opts)) := by
    simp
  rw [hshape]
  exact hmap.append_left results

/-- C6: with fail-fast off, running the same frozen registry with
concurrency 1 and with concurrency K > 1 — under any completion schedules —
produces identical RunSummary variant counts. -/
theorem concurrency_invariant_counts (fr : FrozenRegistry) (opts : RunOptions)
    (K : Nat) (sched1 sched2 : List Nat)
    (hff : opts.failFast = false) (hK : 1 < K) :
    countsOf (runScheduler fr { opts with concurrency := 1 } sched1)
      = countsOf (runScheduler fr { opts with concurrency := K } sched2) := by
  have hfun : entryOutcome { opts with concurrency := 1 }
      = entryOutcome { opts with concurrency := K } := funext (fun e => rfl)
  have h1 : (runScheduler fr { opts with concurrency := 1 } sched1).results.Perm
      ((fr.list.filter opts.filter).map (entryOutcome { opts with concurrency := 1 })) := by
    have h := schedLoop_results_perm { opts with concurrency := 1 } hff
      (fr.list.filter opts.filter) [] sched1 [] []
    simpa [runScheduler] using h
  have h2 : (runScheduler fr { opts with concurrency := K } sched2).results.Perm
      ((fr.list.filter opts.filter).map (entryOutcome { opts with concurrency := 1 })) := by
    have h := schedLoop_results_perm { opts with concurrency := K } hff
      (fr.list.filter opts.filter) [] sched2 [] []
    rw [hfun]
    simpa [runScheduler] using h
  have hp : (runScheduler fr { opts with concurrency := 1 } sched1).results.Perm
      (runScheduler fr { opts with concurrency := K } sched2).results :=
    h1.trans h2.symm
  simp only [countsOf, VariantCounts.mk.injEq]
  exact ⟨hp.countP_eq _, hp.countP_eq _, hp.countP_eq _, hp.countP_eq _, hp.countP_eq _⟩

/-- Witness for C6 at a two-entry registry, concurrency 1 versus 2. -/
theorem concurrency_invariant_counts_witness :
    countsOf (runScheduler
        ⟨[{ name := "a", body := { steps := [] } },
          { name := "b", body := { steps := [BodyStep.abort "boom"] } }]⟩
        { concurrency := 1 } [0, 1]) =
    countsOf (runScheduler
        ⟨[{ name := "a", body := { steps := [] } },
          { name := "b", body := { steps := [BodyStep.abort "boom"] } }]⟩
        { concurrency := 2 } [1, 0]) :=
  concurrency_invariant_counts
    ⟨[{ name := "a", body := { steps := [] } },
      { name := "b", body := { steps := [BodyStep.abort "boom"] } }]⟩
    {} 2 [0, 1] [1, 0] rfl (by decide)

/-- C7: with fail-fast enabled, at the moment an in-flight entry finishes with
a non-`Passed`/non-`Ignored` outcome (dispatch being blocked at that moment),
no entry not already dispatched is ever newly dispatched, while every
already-dispatched in-flight entry still runs to completion and contributes
its true outcome to the results. -/
theorem failFast_no_new_dispatch (opts : RunOptions)
    (pending running : List TestEntry) (sched : List Nat)
    (results : List (String × Outcome)) (dispatched : List String)
    (hff : opts.failFast = true)
    (hblock : pending = [] ∨ max 1 opts.concurrency ≤ running.length)
    (hne : ¬ running.rotate (sched.headD 0) = [])
    (htrig : triggersFailFast
      (runEntry opts ((running.rotate (sched.headD 0)).head hne)).2 = true) :
    (schedLoop opts pending running false sched results dispatched).dispatched
      = dispatched ∧
    (schedLoop opts pending running false sched results dispatched).results.Perm
      (results ++ running.map (runEntry opts)) := by
  have h1 : pending = [] ∨ (false = true) ∨ max 1 opts.concurrency ≤ running.length := by
    rcases hblock with h | h
    · exact Or.inl h
    · exact Or.inr (Or.inr h)
  rw [schedLoop, dif_pos h1, dif_neg hne]
  have hstop : (false || (opts.failFast && triggersFailFast
      (runEntry opts ((running.rotate (sched.headD 0)).head hne)).2)) = true := by
    rw [hff, htrig]
    rfl
  rw [hstop]
  obtain ⟨hd, hr⟩ := schedLoop_stopped opts pending
    (running.rotate (sched.headD 0)).tail sched.tail
    (results ++ [(((running.rotate (sched.headD 0)).head hne).name,
      (runEntry opts ((running.rotate (sched.headD 0)).head hne)).2)]) dispatched
  exact ⟨hd, hr.trans (finish_step_perm opts running (sched.headD 0) hne results)⟩

/-- A concrete failing entry used by witnesses. -/
def wBad : TestEntry :=
  { name := "bad",
    body := { steps := [BodyStep.assert false ⟨"m", none, none, ""⟩] } }

/-- A concrete never-run entry used by witnesses. -/
def wLater : TestEntry := { name := "later", body := { steps := [] } }

/-- Witness for C7: one failing in-flight entry, one pending entry, fail-fast
on. -/
theorem failFast_no_new_dispatch_witness :
    (schedLoop { failFast := true } [wLater] [wBad]
        false [] [] ["bad"]).dispatched = ["bad"] ∧
    (schedLoop { failFast := true } [wLater] [wBad]
        false [] [] ["bad"]).results.Perm
      ([] ++ [wBad].map (runEntry { failFast := true })) :=
  failFast_no_new_dispatch { failFast := true } [wLater] [wBad]
    [] [] ["bad"] rfl (by decide) (by decide) (by decide)

/-- C8: in a run over a finalized registry, an entry whose `ignored` attribute
is set and not overridden by the filter receives an `Ignored` outcome and is
never dispatched to an Isolation Runner — its body is never invoked. -/
theorem ignored_entry_not_dispatched (registry : List TestEntry)
    (fr : FrozenRegistry) (opts : RunOptions) (sched : List Nat) (e : TestEntry)
    (hfin : finalize registry = Except.ok fr)
    (hff : opts.failFast = false) (hmem : e ∈ fr.list)
    (hfilter : opts.filter e = true)
    (hign : e.ignored = true) (hov : opts.overrideIgnored = false) :
    (e.name, Outcome.ignored) ∈ (runScheduler fr opts sched).results ∧
    e.name ∉ (runScheduler fr opts sched).dispatched := by
  have hcond : offendingNames registry = [] := by
    by_contra hc
    rw [finalize, if_neg hc] at hfin
    exact absurd hfin (by simp)
  have hfreq : fr = ⟨List.insertionSort nameLE registry⟩ := by
    rw [finalize, if_pos hcond] at hfin
    exact (Except.ok.inj hfin).symm
  have hnodupReg : (registry.map TestEntry.name).Nodup :=
    (offendingNames_eq_nil_iff registry).mp hcond
  have hnodup : (fr.list.map TestEntry.name).Nodup := by
    rw [hfreq]
    exact (((List.perm_insertionSort nameLE registry).map
      TestEntry.name).nodup_iff).mpr hnodupReg
  have hsc : shortCircuit opts e = true := by
    rw [shortCircuit, hign, hov]
    rfl
  have hout : entryOutcome opts e = (e.name, Outcome.ignored) := by
    rw [entryOutcome, hsc]
    rfl
  have hwl : e ∈ fr.list.filter opts.filter := List.mem_filter.mpr ⟨hmem, hfilter⟩
  constructor
  · have hperm := schedLoop_results_perm opts hff (fr.list.filter opts.filter) []
      sched [] []
    rw [runScheduler]
    refine hperm.mem_iff.mpr ?_
    simp only [List.nil_append, List.map_nil, List.mem_map]
    exact ⟨e, hwl, hout⟩
  · have hdisp := schedLoop_dispatched_eq opts hff (fr.list.filter opts.filter) []
      sched [] []
    rw [runScheduler, hdisp]
    simp only [List.nil_append, List.mem_map]
    rintro ⟨x, hx, hxname⟩
    have hx1 := List.mem_filter.mp hx
    have hx2 := List.mem_filter.mp hx1.1
    have hxe : x = e := List.inj_on_of_nodup_map hnodup hx2.1 hmem hxname
    rw [hxe, hsc] at hx1
    exact absurd hx1.2 (by simp)

/-- A concrete ignored entry used by witnesses. -/
def wSkip : TestEntry := { name := "skip", body := { steps := [] }, ignored := true }

/-- Witness for C8: a single ignored entry in a finalized registry. -/
theorem ignored_entry_not_dispatched_witness :
    ("skip", Outcome.ignored) ∈ (runScheduler ⟨[wSkip]⟩ {} []).results ∧
    "skip" ∉ (runScheduler ⟨[wSkip]⟩ {} []).dispatched :=
  ignored_entry_not_dispatched [wSkip] ⟨[wSkip]⟩ {} [] wSkip
    rfl rfl (by decide) rfl rfl rfl

/-- C9: the run's exit status is non-zero exactly when some collected Outcome
(post expected-to-fail remap, as the runner applies it) is `Failed`, `TimedOut`
or `Panicked` — so `Ignored` (and `Passed`) never cause failure — and a filter
matching no entries yields an empty RunSummary with a zero (successful) exit
status. -/
theorem exit_status_contract (fr : FrozenRegistry) (opts : RunOptions)
    (sched : List Nat) :
    (exitCode (runScheduler fr opts sched) ≠ 0 ↔
      ∃ p ∈ (runScheduler fr opts sched).results,
        (∃ recs diag, p.2 = Outcome.failed recs diag) ∨
        p.2 = Outcome.timedOut ∨
        (∃ m recs, p.2 = Outcome.panicked m recs)) ∧
    ((∀ e ∈ fr.list, opts.filter e = false) →
      (runScheduler fr opts sched).results = [] ∧
      (runScheduler fr opts sched).dispatched = [] ∧
      exitCode (runScheduler fr opts sched) = 0) := by
  have hiff : ∀ o : Outcome, isHardFailure o = true ↔
      ((∃ recs diag, o = Outcome.failed recs diag) ∨ o = Outcome.timedOut ∨
       (∃ m recs, o = Outcome.panicked m recs)) := by
    intro o
    cases o <;> simp [isHardFailure]
  constructor
  · constructor
    · intro hne
      have h : (runScheduler fr opts sched).results.any
          (fun r => isHardFailure r.2) = true := by
        by_contra hc
        rw [exitCode, if_neg hc] at hne
        exact hne rfl
      obtain ⟨p, hp, hph⟩ := List.any_eq_true.mp h
      exact ⟨p, hp, (hiff p.2).mp hph⟩
    · rintro ⟨p, hp, hph⟩
      have h : (runScheduler fr opts sched).results.any
          (fun r => isHardFailure r.2) = true :=
        List.any_eq_true.mpr ⟨p, hp, (hiff p.2).mpr hph⟩
      rw [exitCode, if_pos h]
      exact one_ne_zero
  · intro hnone
    have hwl : fr.list.filter opts.filter = [] := by
      rw [List.filter_eq_nil_iff]
      intro a ha
      rw [hnone a ha]
      simp
    have hrun : runScheduler fr opts sched = ⟨[], []⟩ := by
      rw [runScheduler, hwl, schedLoop]
      simp
    rw [hrun]
    exact ⟨rfl, rfl, rfl⟩

/-- Witness for C9: a filter matching nothing yields the empty summary and
exit status 0. -/
theorem exit_status_contract_witness :
    (runScheduler ⟨[wBad]⟩ { filter := fun _ => false } []).results = [] ∧
    (runScheduler ⟨[wBad]⟩ { filter := fun _ => false } []).dispatched = [] ∧
    exitCode (runScheduler ⟨[wBad]⟩ { filter := fun _ => false } []) = 0 :=
  (exit_status_contract ⟨[wBad]⟩ { filter := fun _ => false } []).2
    (fun _ _ => rfl)

/-! ## The actual `src/` code: the stub crate's public interface -/

/-- Embedded from `src/tust/src/lib.rs`: the shape of the crate's public
interface — its public root-level modules (each with the list of public item
names it contains or re-exports) and its public root-level non-module items. -/
structure CratePubInterface where
  rootModules : List (String × List String)
  rootItems : List String
deriving DecidableEq, Repr

/-- Embedded from `src/tust/src/lib.rs`: every `pub use` re-export is commented
out, so the only public item is `pub mod prelude`, whose body is empty (only a
comment).  No other public item exists. -/
def tustPubInterface : CratePubInterface :=
  { rootModules := [("prelude", [])], rootItems := [] }

/-- The names of all operations the crate's public interface offers: public
root items plus the public items of its public modules. -/
def CratePubInterface.operationNames (c : CratePubInterface) : List String :=
  c.rootModules.foldr (fun m acc => m.2 ++ acc) c.rootItems

/-- The operations the spec names that are absent from the stub. -/
def specOperationNames : List String :=
  ["register", "finalize", "entries", "run", "assert", "assert_fatal",
   "report_outcome", "record", "finish", "render"]

/-- C10: the crate's public interface contains no operations at all — the only
public item is the empty module `prelude` — and none of the operations the
spec names is defined or re-exported anywhere in the source. -/
theorem stub_interface_has_no_operations :
    tustPubInterface.rootModules = [("prelude", [])] ∧
    tustPubInterface.rootItems = [] ∧
    tustPubInterface.operationNames = [] ∧
    specOperationNames.all
      (fun n => !(tustPubInterface.operationNames.contains n)) = true := by
  refine ⟨rfl, rfl, rfl, ?_⟩
  decide
